/-
Formal model of `tau.py` (Thruster Arrangement Utility).

The source computes, for a fixed arrangement of thrusters, the maximum net
force achievable in a direction subject to zero cross-axis force/torque and a
current budget.  This file gives a shallow embedding of the core pipeline:

  * `Thruster3D`           — the thruster record (class `Thruster3D`, lines 19–36);
  * `transform_orientations` — the direction-basis transform (lines 39–74);
  * `max_thrust_lp`, `min_current_lp` — the data of the two `scipy.optimize.linprog`
    calls assembled by `get_max_thrust` (lines 77–181);
  * `combine_half_thrusters`, `current_quadratic`, `roots_max`, `derating_step`
    — the current-derating arithmetic (lines 183–214);
  * `get_max_thrust`       — the two-LP-plus-derating pipeline (lines 77–214);
  * `sample_grid_u`, `sample_grid_v` — the sampler grid of `main` (line 302).

Conventions of the embedding:
  * floating point arithmetic is modelled by exact real arithmetic over `ℝ`;
  * division by zero is totalized as in Lean (`x / 0 = 0`); the one place the
    source can divide by zero (normalizing a zero direction) is discussed at
    the theorem about it;
  * `scipy.optimize.linprog` is external; it is modelled as an oracle
    `Solver` returning `some (fun, x)` (optimal value and point) on success
    and `none` on failure (scipy sets `result.fun = result.x = None` then);
  * `np.roots` followed by Python `max` is modelled by `roots_max`:
    a quadratic with negative discriminant yields complex roots, which Python
    `max` cannot compare (`TypeError`); a polynomial whose coefficients are
    all zero except the constant term yields an empty root array, and `max`
    of an empty sequence raises `ValueError`;
  * the Python exceptions that can escape the modelled code are collected in
    `TauError`.  The error classes named by the specification
    (`DegenerateInputError`, `SolverError`, `CurrentInfeasibleError`) do not
    occur anywhere in the source; they appear as constructors here only so
    that theorems can state that the code never produces them.
-/
import Mathlib

open scoped Matrix

/-- 3-vectors, as numpy arrays of shape (3,). -/
abbrev V3 : Type := Fin 3 → ℝ

/-- Exceptions observable from the modelled code.  The first three are the
error kinds the specification asks for; no class of these names exists in the
source.  The last three are the exceptions the source can actually raise. -/
inductive TauError where
  | degenerateInput
  | solverError
  | currentInfeasible
  | linAlgError
  | typeError
  | valueError
  deriving DecidableEq

/-- `DEFAULT_MAX_THRUSTS = [-2.9, 3.71]` (line 11), as a (lo, hi) bound pair. -/
def DEFAULT_MAX_THRUSTS : ℝ × ℝ := (-2.9, 3.71)

/-- `DEFAULT_FWD_CURRENT = [.741, 1.89, -.278]` (line 14): quadratic current
coefficients (a, b, c) for forward thrust. -/
def DEFAULT_FWD_CURRENT : ℝ × ℝ × ℝ := (0.741, 1.89, -0.278)

/-- `DEFAULT_REV_CURRENT = [1.36, 2.04, -.231]` (line 15). -/
def DEFAULT_REV_CURRENT : ℝ × ℝ × ℝ := (1.36, 2.04, -0.231)

/-- `DEFAULT_MAX_CURRENT = 22` (line 16). -/
def DEFAULT_MAX_CURRENT : ℝ := 22

/-- `DEFAULT_RESOLUTION = 100` (line 10). -/
def DEFAULT_RESOLUTION : ℕ := 100

/-- `np.radians` (lines 27–28). -/
noncomputable def radians (x : ℝ) : ℝ := x * Real.pi / 180

/-- `np.cross` for 3-vectors (used at lines 36, 57, 59, 63). -/
def cross3 (a b : V3) : V3 :=
  ![a 1 * b 2 - a 2 * b 1, a 2 * b 0 - a 0 * b 2, a 0 * b 1 - a 1 * b 0]

/-- `np.linalg.norm` for 3-vectors. -/
noncomputable def vnorm (v : V3) : ℝ := Real.sqrt (v 0 ^ 2 + v 1 ^ 2 + v 2 ^ 2)

/-- `v / np.linalg.norm(v)` (lines 46, 60, 64). -/
noncomputable def normalize3 (v : V3) : V3 := fun i => v i / vnorm v

/-- The thruster record, class `Thruster3D` (lines 19–33).  `__init__` stores
the position, the optional per-thruster parameters, and the orientation
derived from the spherical angles; here the derived vectors are definitions
over the stored fields, which is observationally the same. -/
structure Thruster3D where
  x : ℝ
  y : ℝ
  z : ℝ
  theta : ℝ
  phi : ℝ
  max_thrusts : ℝ × ℝ
  fwd_current : ℝ × ℝ × ℝ
  rev_current : ℝ × ℝ × ℝ

/-- `self.pos = np.array([x, y, z])` (line 21). -/
noncomputable def Thruster3D.pos (t : Thruster3D) : V3 := ![t.x, t.y, t.z]

/-- `self.orientation` (lines 29–33): unit vector from spherical angles. -/
noncomputable def Thruster3D.orientation (t : Thruster3D) : V3 :=
  ![Real.sin (radians t.phi) * Real.cos (radians t.theta),
    Real.sin (radians t.phi) * Real.sin (radians t.theta),
    Real.cos (radians t.phi)]

/-- `Thruster3D.torque` (lines 35–36): `np.cross(self.pos, self.orientation)`. -/
noncomputable def Thruster3D.torque (t : Thruster3D) : V3 :=
  cross3 t.pos t.orientation

/-- Lines 56–59 of `transform_orientations`: the second basis vector before
normalization, with the reference axis switched when the (already normalized)
target direction has zero y and z components. -/
noncomputable def second_basis (d : V3) : V3 :=
  if ¬(d 1 = 0 ∧ d 2 = 0) then cross3 d ![1, 0, 0] else cross3 d ![0, 1, 0]

/-- Lines 46–65 of `transform_orientations`: the 3×3 change-of-basis matrix
`new_bases` whose columns are the normalized target direction, the normalized
second basis, and the normalized third basis (`np.cross` of the first two). -/
noncomputable def new_bases (target_dir : V3) : Matrix (Fin 3) (Fin 3) ℝ :=
  Matrix.of fun i j =>
    ![normalize3 target_dir,
      normalize3 (second_basis (normalize3 target_dir)),
      normalize3 (cross3 (normalize3 target_dir)
        (normalize3 (second_basis (normalize3 target_dir))))] j i

/-- `np.linalg.inv` (line 69): fails with `numpy.linalg.LinAlgError` on a
singular matrix, otherwise returns the inverse. -/
noncomputable def inv3 (M : Matrix (Fin 3) (Fin 3) ℝ) :
    Option (Matrix (Fin 3) (Fin 3) ℝ) :=
  if M.det = 0 then none else some M⁻¹

/-- `transform_orientations` (lines 39–74): normalize3 the target direction,
assemble `new_bases`, invert it, and apply the inverse to every thruster
orientation.  Its only failure point is the matrix inversion. -/
noncomputable def transform_orientations (thrusters : List Thruster3D)
    (target_dir : V3) : Except TauError (List V3) :=
  match inv3 (new_bases target_dir) with
  | none => Except.error TauError.linAlgError
  | some Mi => Except.ok (thrusters.map fun th => Mi.mulVec th.orientation)

/-- The data handed to one `scipy.optimize.linprog` call: objective `c`,
equality constraints `A_eq x = b_eq`, and per-variable `bounds`. -/
structure LinProg where
  c : List ℝ
  A_eq : List (List ℝ)
  b_eq : List ℝ
  bounds : List (ℝ × ℝ)

/-- The LP solver oracle standing for `scipy.optimize.linprog`: `some` of the
optimal value `result.fun` and optimal point `result.x` on success, `none` on
failure (scipy then leaves `result.fun` and `result.x` as `None`). -/
abbrev Solver : Type := LinProg → Option (ℝ × List ℝ)

/-- The first LP assembled by `get_max_thrust` (lines 78–119): one variable
per thruster, objective the negated target-axis components, equality rows for
the two off-axis thrusts and three torques, all with right-hand side 0, and
every variable bounded by `DEFAULT_MAX_THRUSTS` (line 101; the per-thruster
`max_thrusts` field is not consulted — the source marks this with a TODO). -/
def max_thrust_lp (transformed_orientations t_constraints : List V3) : LinProg :=
  { c := transformed_orientations.map fun o => -(o 0)
    A_eq := [transformed_orientations.map fun o => o 1,
             transformed_orientations.map fun o => o 2,
             (transformed_orientations.zip t_constraints).map fun p => p.2 0,
             (transformed_orientations.zip t_constraints).map fun p => p.2 1,
             (transformed_orientations.zip t_constraints).map fun p => p.2 2]
    b_eq := [0, 0, 0, 0, 0]
    bounds := transformed_orientations.map fun _ => DEFAULT_MAX_THRUSTS }

/-- `thrusts_x_mincurrent` (lines 142–143): the target-axis equality row of
the second LP, every coefficient duplicated with its negation for the
reverse half-thruster. -/
def thrusts_x_mincurrent (transformed_orientations : List V3) : List ℝ :=
  transformed_orientations.flatMap fun o => [o 0, -(o 0)]

/-- The second LP assembled by `get_max_thrust` (lines 123–181): each
thruster split into forward and reverse half-variables, objective all ones,
equality rows for target-axis thrust (fixed to `max_thrust`), the two
off-axis thrusts and the three torques, and the half-variable bounds
hard-coded to `(0, 3.71)` and `(0, 2.90)` (lines 160–161; again the
per-thruster `max_thrusts` field is not consulted). -/
def min_current_lp (transformed_orientations t_constraints : List V3)
    (max_thrust : ℝ) : LinProg :=
  { c := transformed_orientations.flatMap fun _ => [1, 1]
    A_eq := [thrusts_x_mincurrent transformed_orientations,
             transformed_orientations.flatMap fun o => [o 1, -(o 1)],
             transformed_orientations.flatMap fun o => [o 2, -(o 2)],
             (transformed_orientations.zip t_constraints).flatMap fun p => [p.2 0, -(p.2 0)],
             (transformed_orientations.zip t_constraints).flatMap fun p => [p.2 1, -(p.2 1)],
             (transformed_orientations.zip t_constraints).flatMap fun p => [p.2 2, -(p.2 2)]]
    b_eq := [max_thrust, 0, 0, 0, 0, 0]
    bounds := transformed_orientations.flatMap fun _ => [(0, 3.71), (0, 2.90)] }

/-- Lines 185–188: recombine the duplicated solution into signed thrusts,
`min_current_duplicated_array[i] - min_current_duplicated_array[i+1]` for
each consecutive pair. -/
def combine_half_thrusters : List ℝ → List ℝ
  | a :: b :: rest => (a - b) :: combine_half_thrusters rest
  | _ => []

/-- Loop body of lines 192–202: add one thruster's contribution to the
accumulated quadratic coefficients (a, b, c), choosing `DEFAULT_FWD_CURRENT`
when the signed thrust is ≥ 0 and `DEFAULT_REV_CURRENT` (evaluated at
`-thrust`) otherwise.  The per-thruster `fwd_current`/`rev_current` fields
are not consulted (TODO in the source). -/
noncomputable def current_quadratic_step (acc : ℝ × ℝ × ℝ) (thrust : ℝ) :
    ℝ × ℝ × ℝ :=
  if 0 ≤ thrust then
    (acc.1 + DEFAULT_FWD_CURRENT.1 * thrust ^ 2,
     acc.2.1 + DEFAULT_FWD_CURRENT.2.1 * thrust,
     acc.2.2 + DEFAULT_FWD_CURRENT.2.2)
  else
    (acc.1 + DEFAULT_REV_CURRENT.1 * (-thrust) ^ 2,
     acc.2.1 + DEFAULT_REV_CURRENT.2.1 * (-thrust),
     acc.2.2 + DEFAULT_REV_CURRENT.2.2)

/-- Lines 190–202: the aggregated quadratic coefficients, accumulated from
`[0, 0, 0]` over the signed per-thruster allocation. -/
noncomputable def current_quadratic (thrusts : List ℝ) : ℝ × ℝ × ℝ :=
  thrusts.foldl current_quadratic_step (0, 0, 0)

/-- `max(np.roots([a, b, c]))` (line 207).  With `a ≠ 0` and nonnegative
discriminant, both roots are real and `max` picks the larger.  With `a ≠ 0`
and negative discriminant `np.roots` returns a complex pair and Python `max`
raises `TypeError` (complex numbers are unordered).  With `a = 0`, `np.roots`
strips the leading zeros: for `b ≠ 0` the single root `-c / b` remains, and
for `a = b = 0` the root array is empty and `max([])` raises `ValueError`. -/
noncomputable def roots_max (a b c : ℝ) : Except TauError ℝ :=
  if a = 0 then
    if b = 0 then Except.error TauError.valueError
    else Except.ok (-c / b)
  else
    if b ^ 2 - 4 * a * c < 0 then Except.error TauError.typeError
    else
      Except.ok (max ((-b + Real.sqrt (b ^ 2 - 4 * a * c)) / (2 * a))
                     ((-b - Real.sqrt (b ^ 2 - 4 * a * c)) / (2 * a)))

/-- Lines 209–212: total thrust in the target direction,
`Σ thrusts[i] * transformed_orientations[i][0]`. -/
def thrust_value (thrusts : List ℝ) (transformed_orientations : List V3) : ℝ :=
  ((thrusts.zip transformed_orientations).map fun p => p.1 * p.2 0).sum

/-- Lines 190–214 of `get_max_thrust`: the current-derating step applied to a
signed per-thruster allocation.  Subtract the budget from the constant term,
take `min(1., max(np.roots(...)))` as the multiplier, and scale the total
target-axis thrust by it. -/
noncomputable def derating_step (thrusts : List ℝ)
    (transformed_orientations : List V3) (max_current : ℝ) : Except TauError ℝ :=
  let q := current_quadratic thrusts
  match roots_max q.1 q.2.1 (q.2.2 - max_current) with
  | Except.error e => Except.error e
  | Except.ok r =>
      Except.ok (thrust_value thrusts transformed_orientations * min 1 r)

/-- `get_max_thrust` (lines 77–214): run the max-thrust LP, shave the optimum
by the 0.999 safety factor (`max_thrust = -.999 * result.fun`, line 121), run
the min-current LP at that target, recombine the half-thrusters, and derate.
If either `linprog` call fails, scipy returns `None` for `fun`/`x` and the
source immediately evaluates `-.999 * None` (line 121) or subscripts `None`
(lines 183–187), raising a Python `TypeError`. -/
noncomputable def get_max_thrust (solve : Solver)
    (transformed_orientations t_constraints : List V3) (max_current : ℝ) :
    Except TauError ℝ :=
  match solve (max_thrust_lp transformed_orientations t_constraints) with
  | none => Except.error TauError.typeError
  | some r1 =>
    match solve (min_current_lp transformed_orientations t_constraints
        (-(0.999) * r1.1)) with
    | none => Except.error TauError.typeError
    | some r2 =>
        derating_step (combine_half_thrusters r2.2) transformed_orientations
          max_current

/-- One iteration of the sampling loop in `main` (lines 316–318): transform
the orientations for a direction, then run `get_max_thrust` with the static
torque constraints (line 297). -/
noncomputable def sample_direction (solve : Solver)
    (thrusters : List Thruster3D) (target_dir : V3) (max_current : ℝ) :
    Except TauError ℝ :=
  match transform_orientations thrusters target_dir with
  | Except.error e => Except.error e
  | Except.ok tos =>
      get_max_thrust solve tos (thrusters.map Thruster3D.torque) max_current

/-- `np.linspace`-style axis of `np.mgrid` with a complex step: `n` points
from `start` to `stop`, endpoints included. -/
noncomputable def linspace (start stop : ℝ) (n : ℕ) : List ℝ :=
  (List.range n).map fun i : ℕ => start + (stop - start) * (i : ℝ) / ((n : ℝ) - 1)

/-- Longitude axis of the sampler grid, `np.mgrid[0:2*np.pi:resolution*1j]`
(line 302): `resolution` points. -/
noncomputable def sample_grid_u (resolution : ℕ) : List ℝ :=
  linspace 0 (2 * Real.pi) resolution

/-- Colatitude axis of the sampler grid,
`np.mgrid[0:np.pi:resolution/2*1j]` (line 302): `resolution / 2` is Python
float division and `np.mgrid` takes `int` of the complex step's magnitude,
so the axis has `⌊resolution / 2⌋` points. -/
noncomputable def sample_grid_v (resolution : ℕ) : List ℝ :=
  linspace 0 Real.pi (resolution / 2)

/-- The specification's per-thruster current draw `a·|t|² + b·|t| + c`, with
the forward coefficients selected for nonnegative thrust and the reverse
coefficients otherwise, exactly as lines 192–202 select them (the code
applies the module defaults to every thruster). -/
noncomputable def current_draw (thrust : ℝ) : ℝ :=
  if 0 ≤ thrust then
    DEFAULT_FWD_CURRENT.1 * |thrust| ^ 2 + DEFAULT_FWD_CURRENT.2.1 * |thrust|
      + DEFAULT_FWD_CURRENT.2.2
  else
    DEFAULT_REV_CURRENT.1 * |thrust| ^ 2 + DEFAULT_REV_CURRENT.2.1 * |thrust|
      + DEFAULT_REV_CURRENT.2.2

/-- Dot product of two coefficient/variable lists (truncating at the shorter,
which never happens on the lengths the pipeline produces). -/
def dotL (a b : List ℝ) : ℝ := (List.zipWith (fun x y => x * y) a b).sum

/-! ### Lemmas about the aggregated current quadratic -/

lemma current_quadratic_foldl (ts : List ℝ) (acc : ℝ × ℝ × ℝ) :
    ts.foldl current_quadratic_step acc =
      (acc.1 + (current_quadratic ts).1,
       acc.2.1 + (current_quadratic ts).2.1,
       acc.2.2 + (current_quadratic ts).2.2) := by
  induction ts generalizing acc with
  | nil => simp [current_quadratic]
  | cons t ts ih =>
      simp only [current_quadratic, List.foldl_cons] at *
      rw [ih (current_quadratic_step acc t), ih (current_quadratic_step (0, 0, 0) t)]
      by_cases h : 0 ≤ t <;>
        simp only [current_quadratic_step, if_pos, if_neg, h, if_true, if_false] <;>
        refine Prod.ext ?_ (Prod.ext ?_ ?_) <;> simp <;> ring

lemma current_quadratic_cons (t : ℝ) (ts : List ℝ) :
    current_quadratic (t :: ts) =
      ((current_quadratic_step (0, 0, 0) t).1 + (current_quadratic ts).1,
       (current_quadratic_step (0, 0, 0) t).2.1 + (current_quadratic ts).2.1,
       (current_quadratic_step (0, 0, 0) t).2.2 + (current_quadratic ts).2.2) := by
  simp only [current_quadratic, List.foldl_cons]
  exact current_quadratic_foldl ts _

lemma current_quadratic_a_nonneg (ts : List ℝ) : 0 ≤ (current_quadratic ts).1 := by
  induction ts with
  | nil => simp [current_quadratic]
  | cons t ts ih =>
      rw [current_quadratic_cons]
      have h0 : 0 ≤ (current_quadratic_step (0, 0, 0) t).1 := by
        by_cases h : 0 ≤ t <;>
          simp only [current_quadratic_step, h, if_true, if_false,
            DEFAULT_FWD_CURRENT, DEFAULT_REV_CURRENT] <;> nlinarith [sq_nonneg t]
      simpa using add_nonneg h0 ih

lemma current_quadratic_b_nonneg (ts : List ℝ) : 0 ≤ (current_quadratic ts).2.1 := by
  induction ts with
  | nil => simp [current_quadratic]
  | cons t ts ih =>
      rw [current_quadratic_cons]
      have h0 : 0 ≤ (current_quadratic_step (0, 0, 0) t).2.1 := by
        by_cases h : 0 ≤ t <;>
          simp only [current_quadratic_step, h, if_true, if_false,
            DEFAULT_FWD_CURRENT, DEFAULT_REV_CURRENT] <;> push_neg at * <;> nlinarith
      simpa using add_nonneg h0 ih

lemma current_quadratic_c_nonpos (ts : List ℝ) : (current_quadratic ts).2.2 ≤ 0 := by
  induction ts with
  | nil => simp [current_quadratic]
  | cons t ts ih =>
      rw [current_quadratic_cons]
      have h0 : (current_quadratic_step (0, 0, 0) t).2.2 ≤ 0 := by
        by_cases h : 0 ≤ t <;>
          simp only [current_quadratic_step, h, if_true, if_false,
            DEFAULT_FWD_CURRENT, DEFAULT_REV_CURRENT] <;> norm_num
      simpa using add_nonpos h0 ih

/-- C4: For every signed per-thruster allocation, the aggregated derating
quadratic built by `get_max_thrust` (lines 190–202, before the budget is
subtracted from its constant term), evaluated at scale s = 1, equals the sum
over thrusters of the quadratic current draw a·|t|² + b·|t| + c at that
thruster's allocated thrust, with the forward coefficients used when the
allocation is nonnegative and the reverse coefficients otherwise: the
aggregation is exact. -/
theorem current_quadratic_aggregation_exact (ts : List ℝ) :
    (current_quadratic ts).1 * 1 ^ 2 + (current_quadratic ts).2.1 * 1
      + (current_quadratic ts).2.2 = (ts.map current_draw).sum := by
  induction ts with
  | nil => simp [current_quadratic]
  | cons t ts ih =>
      rw [current_quadratic_cons]
      simp only [List.map_cons, List.sum_cons]
      rw [← ih]
      by_cases h : 0 ≤ t
      · have habs : |t| = t := abs_of_nonneg h
        simp only [current_quadratic_step, current_draw, h, if_true, habs]
        ring
      · have habs : |t| = -t := abs_of_neg (lt_of_not_le h)
        simp only [current_quadratic_step, current_draw, h, if_false, habs]
        ring

/-! ### The LP data and solver-failure behaviour -/

lemma flatMap_const_replicate {α β : Type} (l : List α) (L : List β) :
    (l.flatMap fun _ => L) = (List.replicate l.length L).flatten := by
  induction l with
  | nil => simp
  | cons a l ih => simp [List.flatMap_cons, ih, List.replicate_succ]

/-- C3: the per-variable bounds of both linear programs assembled by
`get_max_thrust` are constants taken from the module-level defaults,
independent of any per-thruster data: every variable of the max-thrust LP is
bounded by `DEFAULT_MAX_THRUSTS = (-2.9, 3.71)` (line 101), and every
half-variable pair of the min-current LP by the hard-coded `(0, 3.71)` and
`(0, 2.90)` (lines 160–161).  The thrusters' own `max_thrusts` fields are
never consulted (they are not even passed to `get_max_thrust`). -/
theorem lp_bounds_are_module_defaults
    (transformed_orientations t_constraints : List V3) (max_thrust : ℝ) :
    (max_thrust_lp transformed_orientations t_constraints).bounds
        = List.replicate transformed_orientations.length ((-2.9 : ℝ), (3.71 : ℝ)) ∧
    (min_current_lp transformed_orientations t_constraints max_thrust).bounds
        = (List.replicate transformed_orientations.length
            [((0 : ℝ), (3.71 : ℝ)), ((0 : ℝ), (2.90 : ℝ))]).flatten := by
  constructor
  · simp [max_thrust_lp, DEFAULT_MAX_THRUSTS, List.map_const']
  · rw [min_current_lp, ← flatMap_const_replicate]

/-- C6: when the LP solver oracle reports failure (scipy's `result.fun` and
`result.x` are `None`), `get_max_thrust` evaluates `-.999 * None` (line 121)
resp. subscripts `None` (lines 183–188) and dies with a Python `TypeError`;
no `SolverError` is raised (no such class exists in the source).  The first
conjunct is a failure of the first LP, the second a failure of the second LP
alone (the first LP, whose `b_eq` has five rows, still succeeds). -/
theorem get_max_thrust_solver_failure_is_typeerror
    (transformed_orientations t_constraints : List V3) (max_current : ℝ) :
    get_max_thrust (fun _ => none) transformed_orientations t_constraints
        max_current = Except.error TauError.typeError ∧
    ∀ r : ℝ × List ℝ,
      get_max_thrust (fun lp => if lp.b_eq.length = 5 then some r else none)
          transformed_orientations t_constraints max_current
        = Except.error TauError.typeError := by
  constructor
  · simp [get_max_thrust]
  · intro r
    simp [get_max_thrust, max_thrust_lp, min_current_lp]

/-! ### The sampler grid -/

/-- C9 (counterexample): at the default resolution 100 the sampler grid of
`main` (line 302) has 100 longitude values but only 50 colatitude values —
not 100, as the claim's `resolution × resolution` grid would require. -/
theorem sample_grid_default_resolution_counterexample :
    (sample_grid_u 100).length = 100 ∧ (sample_grid_v 100).length = 50 ∧
      ¬((sample_grid_v 100).length = 100) := by
  refine ⟨?_, ?_, ?_⟩
  · rw [sample_grid_u, linspace, List.length_map, List.length_range]
  · rw [sample_grid_v, linspace, List.length_map, List.length_range]
  · rw [sample_grid_v, linspace, List.length_map, List.length_range]
    norm_num

/-- C9 (amended): for every configured resolution the sampler evaluates
`resolution` longitude values by `⌊resolution / 2⌋` colatitude values. -/
theorem sample_grid_lengths (resolution : ℕ) :
    (sample_grid_u resolution).length = resolution ∧
    (sample_grid_v resolution).length = resolution / 2 := by
  constructor
  · rw [sample_grid_u, linspace, List.length_map, List.length_range]
  · rw [sample_grid_v, linspace, List.length_map, List.length_range]

/-! ### Lemmas about `roots_max` and the derating step -/

lemma roots_max_eval {a b c d : ℝ} (ha : a ≠ 0) (hd : 0 ≤ d)
    (hdisc : b ^ 2 - 4 * a * c = d ^ 2) :
    roots_max a b c = Except.ok (max ((-b + d) / (2 * a)) ((-b - d) / (2 * a))) := by
  rw [roots_max, if_neg ha, if_neg (by rw [hdisc]; push_neg; positivity), hdisc,
    Real.sqrt_sq hd]

lemma derating_step_eval {ts : List ℝ} {os : List V3} {I r : ℝ}
    (hr : roots_max (current_quadratic ts).1 (current_quadratic ts).2.1
        ((current_quadratic ts).2.2 - I) = Except.ok r) :
    derating_step ts os I = Except.ok (thrust_value ts os * min 1 r) := by
  rw [derating_step]
  simp only [hr]

lemma derating_step_ok {ts : List ℝ} {os : List V3} {I v : ℝ}
    (h : derating_step ts os I = Except.ok v) :
    ∃ r, roots_max (current_quadratic ts).1 (current_quadratic ts).2.1
        ((current_quadratic ts).2.2 - I) = Except.ok r ∧
      v = thrust_value ts os * min 1 r := by
  rw [derating_step] at h
  cases hE : roots_max (current_quadratic ts).1 (current_quadratic ts).2.1
      ((current_quadratic ts).2.2 - I) with
  | error e => rw [hE] at h; exact absurd h (by simp)
  | ok r =>
      rw [hE] at h
      simp only [Except.ok.injEq] at h
      exact ⟨r, rfl, h.symm⟩

lemma roots_max_mono {a b c₁ c₂ s₁ s₂ : ℝ} (ha : 0 ≤ a) (hb : 0 ≤ b)
    (hc : c₂ ≤ c₁) (h₁ : roots_max a b c₁ = Except.ok s₁)
    (h₂ : roots_max a b c₂ = Except.ok s₂) : s₁ ≤ s₂ := by
  rw [roots_max] at h₁ h₂
  by_cases haz : a = 0
  · rw [if_pos haz] at h₁ h₂
    by_cases hbz : b = 0
    · rw [if_pos hbz] at h₁
      exact absurd h₁ (by simp)
    · rw [if_neg hbz] at h₁ h₂
      simp only [Except.ok.injEq] at h₁ h₂
      have hbpos : 0 < b := lt_of_le_of_ne hb (Ne.symm hbz)
      rw [← h₁, ← h₂]
      exact (div_le_div_right hbpos).mpr (by linarith)
  · have hapos : 0 < a := lt_of_le_of_ne ha (Ne.symm haz)
    rw [if_neg haz] at h₁ h₂
    by_cases hd₁ : b ^ 2 - 4 * a * c₁ < 0
    · rw [if_pos hd₁] at h₁
      exact absurd h₁ (by simp)
    · have hd₂ : ¬(b ^ 2 - 4 * a * c₂ < 0) := by nlinarith
      rw [if_neg hd₁] at h₁
      rw [if_neg hd₂] at h₂
      simp only [Except.ok.injEq] at h₁ h₂
      have hsq : Real.sqrt (b ^ 2 - 4 * a * c₁) ≤ Real.sqrt (b ^ 2 - 4 * a * c₂) :=
        Real.sqrt_le_sqrt (by nlinarith)
      have hs1n : 0 ≤ Real.sqrt (b ^ 2 - 4 * a * c₁) := Real.sqrt_nonneg _
      have hs2n : 0 ≤ Real.sqrt (b ^ 2 - 4 * a * c₂) := Real.sqrt_nonneg _
      have h2a : 0 < 2 * a := by linarith
      rw [← h₁, ← h₂]
      have hm₁ : (-b - Real.sqrt (b ^ 2 - 4 * a * c₁)) / (2 * a)
          ≤ (-b + Real.sqrt (b ^ 2 - 4 * a * c₁)) / (2 * a) :=
        (div_le_div_right h2a).mpr (by linarith)
      rw [max_eq_left hm₁]
      refine le_trans ((div_le_div_right h2a).mpr ?_) (le_max_left _ _)
      linarith

lemma roots_max_nonneg {a b c s : ℝ} (ha : 0 ≤ a) (hb : 0 ≤ b) (hc : c ≤ 0)
    (h : roots_max a b c = Except.ok s) : 0 ≤ s := by
  rw [roots_max] at h
  by_cases haz : a = 0
  · rw [if_pos haz] at h
    by_cases hbz : b = 0
    · rw [if_pos hbz] at h
      exact absurd h (by simp)
    · rw [if_neg hbz] at h
      simp only [Except.ok.injEq] at h
      rw [← h]
      exact div_nonneg (by linarith) hb
  · have hapos : 0 < a := lt_of_le_of_ne ha (Ne.symm haz)
    rw [if_neg haz] at h
    by_cases hd : b ^ 2 - 4 * a * c < 0
    · rw [if_pos hd] at h
      exact absurd h (by simp)
    · rw [if_neg hd] at h
      simp only [Except.ok.injEq] at h
      have hbb : Real.sqrt (b ^ 2) ≤ Real.sqrt (b ^ 2 - 4 * a * c) :=
        Real.sqrt_le_sqrt (by nlinarith)
      rw [Real.sqrt_sq hb] at hbb
      have hp : 0 ≤ (-b + Real.sqrt (b ^ 2 - 4 * a * c)) / (2 * a) :=
        div_nonneg (by linarith) (by linarith)
      rw [← h]
      exact le_trans hp (le_max_left _ _)

lemma derating_step_monotone {ts : List ℝ} {os : List V3} {I₁ I₂ v₁ v₂ : ℝ}
    (hI : I₁ ≤ I₂) (htv : 0 ≤ thrust_value ts os)
    (h₁ : derating_step ts os I₁ = Except.ok v₁)
    (h₂ : derating_step ts os I₂ = Except.ok v₂) : v₁ ≤ v₂ := by
  obtain ⟨r₁, hr₁, hv₁⟩ := derating_step_ok h₁
  obtain ⟨r₂, hr₂, hv₂⟩ := derating_step_ok h₂
  have hle : r₁ ≤ r₂ :=
    roots_max_mono (current_quadratic_a_nonneg ts) (current_quadratic_b_nonneg ts)
      (by linarith) hr₁ hr₂
  rw [hv₁, hv₂]
  exact mul_le_mul_of_nonneg_left (min_le_min le_rfl hle) htv

lemma derating_step_eval_error {ts : List ℝ} {os : List V3} {I : ℝ} {e : TauError}
    (hr : roots_max (current_quadratic ts).1 (current_quadratic ts).2.1
        ((current_quadratic ts).2.2 - I) = Except.error e) :
    derating_step ts os I = Except.error e := by
  rw [derating_step]
  simp only [hr]

lemma min_one_max_of_le_one {A B : ℝ} (hBA : B ≤ A) (hA1 : A ≤ 1) :
    min 1 (max A B) = A := by
  rw [max_eq_left hBA, min_eq_right hA1]

lemma min_one_max_of_ge_one {A B : ℝ} (hBA : B ≤ A) (hA1 : 1 ≤ A) :
    min 1 (max A B) = 1 := by
  rw [max_eq_left hBA]
  exact min_eq_left hA1

lemma thrust_value_single (t : ℝ) (o : V3) : thrust_value [t] [o] = t * o 0 := by
  simp [thrust_value]

/-- Evaluation of the derating step on a single forward-thrusting allocation
`[t]` aligned with the target axis: the multiplier is
`min(1, max(roots of 0.741 t² s² + 1.89 t s + (-0.278 - I)))`. -/
lemma derating_step_single_eval (t I d : ℝ) (ht : 0 ≤ t) (hd : 0 ≤ d)
    (ha : 0.741 * t ^ 2 ≠ 0)
    (hdisc : (1.89 * t) ^ 2 - 4 * (0.741 * t ^ 2) * (-0.278 - I) = d ^ 2) :
    derating_step [t] [![1, 0, 0]] I
      = Except.ok (t * min 1
          (max ((-(1.89 * t) + d) / (2 * (0.741 * t ^ 2)))
               ((-(1.89 * t) - d) / (2 * (0.741 * t ^ 2))))) := by
  have hcq : current_quadratic [t] = (0.741 * t ^ 2, 1.89 * t, -0.278) := by
    rw [current_quadratic, List.foldl_cons, List.foldl_nil, current_quadratic_step,
      if_pos ht]
    simp [DEFAULT_FWD_CURRENT]
  have hr : roots_max (current_quadratic [t]).1 (current_quadratic [t]).2.1
      ((current_quadratic [t]).2.2 - I)
        = Except.ok (max ((-(1.89 * t) + d) / (2 * (0.741 * t ^ 2)))
            ((-(1.89 * t) - d) / (2 * (0.741 * t ^ 2)))) := by
    rw [hcq]
    exact @roots_max_eval (0.741 * t ^ 2) (1.89 * t) (-0.278 - I) d ha hd hdisc
  rw [derating_step_eval hr, thrust_value_single]
  simp

lemma thrust_value_le_aux (ts : List ℝ) : ∀ (os : List V3),
    (∀ t ∈ ts, -2.9 ≤ t ∧ t ≤ 3.71) → (∀ o ∈ os, |o 0| ≤ 1) →
    thrust_value ts os ≤ 3.71 * ts.length := by
  induction ts with
  | nil => intro os hts ho; simp [thrust_value]
  | cons t ts ih =>
      intro os hts ho
      cases os with
      | nil =>
          rw [thrust_value]
          simp only [List.zip_nil_right, List.map_nil, List.sum_nil]
          positivity
      | cons o os =>
          rw [thrust_value]
          simp only [List.zip_cons_cons, List.map_cons, List.sum_cons]
          have h1 : |t| ≤ 3.71 := by
            rcases hts t (List.mem_cons_self t ts) with ⟨hl, hr⟩
            rw [abs_le]
            constructor <;> linarith
          have h2 : |o 0| ≤ 1 := ho o (List.mem_cons_self o os)
          have hterm : t * o 0 ≤ 3.71 := by
            calc t * o 0 ≤ |t * o 0| := le_abs_self _
              _ = |t| * |o 0| := abs_mul t (o 0)
              _ ≤ 3.71 * 1 := mul_le_mul h1 h2 (abs_nonneg _) (by norm_num)
              _ = 3.71 := by norm_num
          have hrest : thrust_value ts os ≤ 3.71 * ts.length :=
            ih os (fun a ha => hts a (List.mem_cons_of_mem _ ha))
              (fun a ha => ho a (List.mem_cons_of_mem _ ha))
          rw [thrust_value] at hrest
          push_cast [List.length_cons]
          linarith

lemma thrusts_x_cons (o : V3) (os : List V3) :
    thrusts_x_mincurrent (o :: os) = o 0 :: -(o 0) :: thrusts_x_mincurrent os := by
  simp [thrusts_x_mincurrent]

lemma dotL_thrusts_x (os : List V3) : ∀ (xs : List ℝ),
    xs.length = 2 * os.length →
    dotL (thrusts_x_mincurrent os) xs
      = thrust_value (combine_half_thrusters xs) os := by
  induction os with
  | nil =>
      intro xs h
      have hx : xs = [] := List.length_eq_zero.mp (by simpa using h)
      subst hx
      simp [thrusts_x_mincurrent, dotL, thrust_value, combine_half_thrusters]
  | cons o os ih =>
      intro xs h
      cases xs with
      | nil => simp at h
      | cons x1 rest1 =>
          cases rest1 with
          | nil => simp at h; omega
          | cons x2 rest =>
              have hlen : rest.length = 2 * os.length := by
                simp only [List.length_cons] at h
                omega
              have htail := ih rest hlen
              rw [dotL, thrust_value] at htail
              rw [dotL, thrust_value, thrusts_x_cons]
              simp only [List.zipWith_cons_cons, List.sum_cons,
                combine_half_thrusters, List.zip_cons_cons, List.map_cons]
              rw [htail]
              ring

/-- C7: for a fixed thruster configuration the two LPs do not depend on
`max_current`, so with a deterministic solver oracle the per-thruster
allocation is fixed; increasing `max_current` then never decreases the value
returned by `get_max_thrust`.  The oracle is assumed to behave like an LP
solver on the two programs it is given: the first LP's reported optimum is at
most 0 (the objective value of the feasible all-zero point), and the second
LP's reported point has one pair of half-variables per thruster and satisfies
its first equality row (target-axis thrust equals the shaved maximum). -/
theorem get_max_thrust_monotone_in_current (solve : Solver)
    (transformed_orientations t_constraints : List V3) (I₁ I₂ v₁ v₂ : ℝ)
    (hI : I₁ ≤ I₂)
    (hopt : ∀ r1 : ℝ × List ℝ,
      solve (max_thrust_lp transformed_orientations t_constraints) = some r1 →
        r1.1 ≤ 0)
    (hfeas : ∀ r1 r2 : ℝ × List ℝ,
      solve (max_thrust_lp transformed_orientations t_constraints) = some r1 →
      solve (min_current_lp transformed_orientations t_constraints
          (-(0.999) * r1.1)) = some r2 →
        r2.2.length = 2 * transformed_orientations.length ∧
        dotL (thrusts_x_mincurrent transformed_orientations) r2.2
          = -(0.999) * r1.1)
    (h₁ : get_max_thrust solve transformed_orientations t_constraints I₁
        = Except.ok v₁)
    (h₂ : get_max_thrust solve transformed_orientations t_constraints I₂
        = Except.ok v₂) :
    v₁ ≤ v₂ := by
  cases hs1 : solve (max_thrust_lp transformed_orientations t_constraints) with
  | none =>
      rw [get_max_thrust, hs1] at h₁
      exact absurd h₁ (by simp)
  | some r1 =>
      cases hs2 : solve (min_current_lp transformed_orientations t_constraints
          (-(0.999) * r1.1)) with
      | none =>
          rw [get_max_thrust, hs1] at h₁
          simp only [hs2] at h₁
          exact absurd h₁ (by simp)
      | some r2 =>
          rw [get_max_thrust, hs1] at h₁ h₂
          simp only [hs2] at h₁ h₂
          obtain ⟨hlen, hdot⟩ := hfeas r1 r2 hs1 hs2
          have hf1 : r1.1 ≤ 0 := hopt r1 hs1
          have htv : 0 ≤ thrust_value (combine_half_thrusters r2.2)
              transformed_orientations := by
            rw [← dotL_thrusts_x _ _ hlen, hdot]
            nlinarith
          exact derating_step_monotone hI htv h₁ h₂

/-- C7 witness: a one-thruster configuration aligned with the target axis,
with an exact solver oracle; the derated thrust at the smaller budget
4.603908/2.964 ≈ 1.55 A is 1.11/1.482 ≈ 0.749 and at the larger budget
11.603908/2.964 ≈ 3.91 A it is 1. -/
theorem get_max_thrust_monotone_in_current_witness :
    (4.603908 / 2.964 : ℝ) ≤ 11.603908 / 2.964 ∧
    get_max_thrust
        (fun lp => if lp.b_eq.length = 5 then some (-(1 / 0.999), [(0 : ℝ)])
          else some (0, [1, 0])) [![1, 0, 0]] [![0, 0, 0]] (4.603908 / 2.964)
      = Except.ok (1.11 / 1.482) ∧
    get_max_thrust
        (fun lp => if lp.b_eq.length = 5 then some (-(1 / 0.999), [(0 : ℝ)])
          else some (0, [1, 0])) [![1, 0, 0]] [![0, 0, 0]] (11.603908 / 2.964)
      = Except.ok 1 ∧
    (1.11 / 1.482 : ℝ) ≤ 1 := by
  have hred : ∀ I : ℝ,
      get_max_thrust
        (fun lp => if lp.b_eq.length = 5 then some (-(1 / 0.999), [(0 : ℝ)])
          else some (0, [1, 0])) [![1, 0, 0]] [![0, 0, 0]] I
      = derating_step [1] [![1, 0, 0]] I := by
    intro I
    rw [get_max_thrust]
    norm_num [max_thrust_lp, min_current_lp, combine_half_thrusters]
  have hA1 : derating_step [1] [![1, 0, 0]] (4.603908 / 2.964)
      = Except.ok (1.11 / 1.482) := by
    rw [derating_step_single_eval 1 (4.603908 / 2.964) 3 (by norm_num)
      (by norm_num) (by norm_num) (by norm_num)]
    rw [min_one_max_of_le_one (by norm_num) (by norm_num)]
    norm_num
  have hA2 : derating_step [1] [![1, 0, 0]] (11.603908 / 2.964)
      = Except.ok 1 := by
    rw [derating_step_single_eval 1 (11.603908 / 2.964) 4 (by norm_num)
      (by norm_num) (by norm_num) (by norm_num)]
    rw [min_one_max_of_ge_one (by norm_num) (by norm_num)]
    norm_num
  have hopt : ∀ r1 : ℝ × List ℝ,
      (fun lp : LinProg => if lp.b_eq.length = 5 then some (-(1 / 0.999), [(0 : ℝ)])
        else some ((0 : ℝ), [(1 : ℝ), 0])) (max_thrust_lp [![1, 0, 0]] [![0, 0, 0]])
        = some r1 → r1.1 ≤ 0 := by
    intro r1 hr1
    norm_num [max_thrust_lp] at hr1
    rw [← hr1]
    norm_num
  have hfeas : ∀ r1 r2 : ℝ × List ℝ,
      (fun lp : LinProg => if lp.b_eq.length = 5 then some (-(1 / 0.999), [(0 : ℝ)])
        else some ((0 : ℝ), [(1 : ℝ), 0])) (max_thrust_lp [![1, 0, 0]] [![0, 0, 0]])
        = some r1 →
      (fun lp : LinProg => if lp.b_eq.length = 5 then some (-(1 / 0.999), [(0 : ℝ)])
        else some ((0 : ℝ), [(1 : ℝ), 0]))
          (min_current_lp [![1, 0, 0]] [![0, 0, 0]] (-(0.999) * r1.1)) = some r2 →
        r2.2.length = 2 * ([![(1 : ℝ), 0, 0]] : List V3).length ∧
        dotL (thrusts_x_mincurrent [![1, 0, 0]]) r2.2 = -(0.999) * r1.1 := by
    intro r1 r2 hr1 hr2
    norm_num [max_thrust_lp] at hr1
    norm_num [min_current_lp] at hr2
    rw [← hr1, ← hr2]
    norm_num [thrusts_x_mincurrent, dotL]
  refine ⟨by norm_num, ?_, ?_, ?_⟩
  · rw [hred]
    exact hA1
  · rw [hred]
    exact hA2
  · exact get_max_thrust_monotone_in_current _ [![1, 0, 0]] [![0, 0, 0]]
      (4.603908 / 2.964) (11.603908 / 2.964) (1.11 / 1.482) 1 (by norm_num)
      hopt hfeas (by rw [hred]; exact hA1) (by rw [hred]; exact hA2)

/-- C8 (amended): every value the derating step can return for an allocation
respecting the bounds the code actually enforces (the module defaults
[-2.9, 3.71]), with transformed orientations of at most unit target-axis
component, a nonnegative target-axis total (the min-current LP fixes it to
the shaved first-LP optimum, which is nonnegative), and a nonnegative current
budget, satisfies 0 ≤ rho ≤ 3.71 · (number of thrusters) — the sum of the
forward bounds the code uses.  This equals the sum of the thrusters' forward
`thrustBounds` exactly when every thruster keeps the default bounds. -/
theorem derating_step_rho_bounds (ts : List ℝ) (os : List V3) (I rho : ℝ)
    (hts : ∀ t ∈ ts, -2.9 ≤ t ∧ t ≤ 3.71) (ho : ∀ o ∈ os, |o 0| ≤ 1)
    (htv : 0 ≤ thrust_value ts os) (hI : 0 ≤ I)
    (h : derating_step ts os I = Except.ok rho) :
    0 ≤ rho ∧ rho ≤ 3.71 * ts.length := by
  obtain ⟨r, hr, hv⟩ := derating_step_ok h
  have hrn : 0 ≤ r :=
    roots_max_nonneg (current_quadratic_a_nonneg ts) (current_quadratic_b_nonneg ts)
      (by linarith [current_quadratic_c_nonpos ts]) hr
  have hm0 : 0 ≤ min 1 r := le_min (by norm_num) hrn
  have hm1 : min 1 r ≤ 1 := min_le_left _ _
  subst hv
  constructor
  · exact mul_nonneg htv hm0
  · calc thrust_value ts os * min 1 r ≤ thrust_value ts os * 1 :=
        mul_le_mul_of_nonneg_left hm1 htv
      _ = thrust_value ts os := mul_one _
      _ ≤ 3.71 * ts.length := thrust_value_le_aux ts os hts ho

/-- C8 witness: the bounds theorem applied to a single thruster at budget
4.603908/2.964, where the derating step returns rho = 1.11/1.482. -/
theorem derating_step_rho_bounds_witness :
    (∀ t ∈ [(1 : ℝ)], -2.9 ≤ t ∧ t ≤ 3.71) ∧
    (∀ o ∈ ([![1, 0, 0]] : List V3), |o 0| ≤ 1) ∧
    0 ≤ thrust_value [1] [![1, 0, 0]] ∧
    (0 : ℝ) ≤ 4.603908 / 2.964 ∧
    derating_step [1] [![1, 0, 0]] (4.603908 / 2.964)
      = Except.ok (1.11 / 1.482) ∧
    (0 ≤ (1.11 / 1.482 : ℝ) ∧
      (1.11 / 1.482 : ℝ) ≤ 3.71 * (([(1 : ℝ)].length : ℕ) : ℝ)) := by
  have hts : ∀ t ∈ [(1 : ℝ)], -2.9 ≤ t ∧ t ≤ 3.71 := by
    intro t ht
    simp only [List.mem_singleton] at ht
    subst ht
    norm_num
  have ho : ∀ o ∈ ([![1, 0, 0]] : List V3), |o 0| ≤ 1 := by
    intro o hoo
    simp only [List.mem_singleton] at hoo
    subst hoo
    norm_num
  have htv : 0 ≤ thrust_value [1] [![1, 0, 0]] := by
    rw [thrust_value_single]
    norm_num
  have heval : derating_step [1] [![1, 0, 0]] (4.603908 / 2.964)
      = Except.ok (1.11 / 1.482) := by
    rw [derating_step_single_eval 1 (4.603908 / 2.964) 3 (by norm_num)
      (by norm_num) (by norm_num) (by norm_num)]
    rw [min_one_max_of_le_one (by norm_num) (by norm_num)]
    norm_num
  exact ⟨hts, ho, htv, by norm_num, heval,
    derating_step_rho_bounds [1] [![1, 0, 0]] (4.603908 / 2.964) (1.11 / 1.482)
      hts ho htv (by norm_num) heval⟩

/-- C8 (counterexample): the stored magnitude is NOT bounded by the sum of
the thrusters' own forward `thrustBounds`: a thruster declaring
`max_thrusts = (-0.1, 0.1)` still gets the default LP bounds, and an
allocation of 1.9 (legal for the code) derates to rho ≈ 0.145 > 0.1. -/
theorem envelope_rho_bound_counterexample :
    ¬ (∀ (TS : List Thruster3D) (ts : List ℝ) (os : List V3) (I rho : ℝ),
        (∀ t ∈ ts, -2.9 ≤ t ∧ t ≤ 3.71) → (∀ o ∈ os, |o 0| ≤ 1) →
        0 ≤ thrust_value ts os → 0 ≤ I → ts.length = TS.length →
        derating_step ts os I = Except.ok rho →
        rho ≤ (TS.map fun th => th.max_thrusts.2).sum) := by
  intro hclaim
  have heval : derating_step [1.9] [![1, 0, 0]] (0.13010788 / 10.70004)
      = Except.ok (1.9 * ((-(1.89 * 1.9) + 4) / (2 * (0.741 * 1.9 ^ 2)))) := by
    rw [derating_step_single_eval 1.9 (0.13010788 / 10.70004) 4 (by norm_num)
      (by norm_num) (by norm_num) (by norm_num)]
    rw [min_one_max_of_le_one (by norm_num) (by norm_num)]
  have h := hclaim
      [⟨0, 0, 0, 0, 0, (-0.1, 0.1), DEFAULT_FWD_CURRENT, DEFAULT_REV_CURRENT⟩]
      [1.9] [![1, 0, 0]] (0.13010788 / 10.70004)
      (1.9 * ((-(1.89 * 1.9) + 4) / (2 * (0.741 * 1.9 ^ 2))))
      (by intro t ht; simp only [List.mem_singleton] at ht; subst ht; norm_num)
      (by intro o hoo; simp only [List.mem_singleton] at hoo; subst hoo; norm_num)
      (by rw [thrust_value_single]; norm_num)
      (by norm_num) (by simp) heval
  simp only [List.map_cons, List.map_nil, List.sum_cons, List.sum_nil] at h
  norm_num at h

/-- C1: the derating step never raises a `CurrentInfeasibleError` (no such
class exists in the source).  First conjunct: when every allocated thrust is
zero (a direction with zero achievable thrust; the oracle here returns the
genuine LP optima), the quadratic degenerates to the rootless constant
`-0.278 - 22`, `np.roots` returns an empty array, and `max([])` raises
`ValueError`.  Second and third conjuncts: when the usable root is negative
(budget below the idle draw), the negative root is applied as a scale and a
negative thrust is returned instead of an error being raised. -/
theorem current_derating_never_raises_infeasible :
    get_max_thrust
        (fun lp => if lp.b_eq.length = 5 then some (0, [(0 : ℝ)])
          else some (0, [0, 0]))
        [![0, 1, 0]] [![0, 0, 0]] 22 = Except.error TauError.valueError ∧
    derating_step [1] [![1, 0, 0]] (-0.278 - 1029 / 1235)
      = Except.ok (-(0.84 / 1.482)) ∧
    (-(0.84 / 1.482) : ℝ) < 0 := by
  refine ⟨?_, ?_, by norm_num⟩
  · have hred : get_max_thrust
        (fun lp => if lp.b_eq.length = 5 then some (0, [(0 : ℝ)])
          else some (0, [0, 0]))
        [![0, 1, 0]] [![0, 0, 0]] 22 = derating_step [0] [![0, 1, 0]] 22 := by
      rw [get_max_thrust]
      norm_num [max_thrust_lp, min_current_lp, combine_half_thrusters]
    rw [hred]
    have hcq : current_quadratic [0] = (0, 0, -0.278) := by
      rw [current_quadratic, List.foldl_cons, List.foldl_nil,
        current_quadratic_step, if_pos le_rfl]
      norm_num [DEFAULT_FWD_CURRENT]
    apply derating_step_eval_error
    rw [hcq]
    norm_num [roots_max]
  · rw [derating_step_single_eval 1 (-0.278 - 1029 / 1235) 1.05 (by norm_num)
      (by norm_num) (by norm_num) (by norm_num)]
    rw [min_one_max_of_le_one (by norm_num) (by norm_num)]
    norm_num

/-! ### The direction-basis transform: degenerate input and orthonormality -/

lemma cross3_0 (a b : V3) : cross3 a b 0 = a 1 * b 2 - a 2 * b 1 := rfl

lemma cross3_1 (a b : V3) : cross3 a b 1 = a 2 * b 0 - a 0 * b 2 := rfl

lemma cross3_2 (a b : V3) : cross3 a b 2 = a 0 * b 1 - a 1 * b 0 := rfl

lemma cross3_zero_left (b : V3) : cross3 0 b = 0 := by
  funext i
  fin_cases i <;>
    simp [cross3, Matrix.vecHead, Matrix.vecTail]

lemma vnorm_zero : vnorm (0 : V3) = 0 := by
  simp [vnorm]

lemma normalize3_zero : normalize3 (0 : V3) = 0 := by
  funext i
  simp [normalize3, vnorm_zero]

lemma vec3_zero_eq : (![0, 0, 0] : V3) = 0 := by
  funext i
  fin_cases i <;> rfl

lemma second_basis_zero : second_basis (0 : V3) = 0 := by
  rw [second_basis]
  simp [cross3_zero_left]

lemma new_bases_zero : new_bases (0 : V3) = 0 := by
  ext i j
  rw [new_bases]
  simp only [Matrix.of_apply, normalize3_zero, second_basis_zero, cross3_zero_left]
  fin_cases j <;> simp [Matrix.vecHead, Matrix.vecTail]

/-- C2: on the zero target direction `(0,0,0)`, `transform_orientations` does
not raise any `DegenerateInputError` (no such class exists in the source) —
line 46 divides by the zero norm unguarded.  In this exact-arithmetic model
(division by zero totalized to zero) every basis vector collapses to zero and
the failure surfaces as `numpy.linalg.LinAlgError` from inverting the
singular matrix at line 69; under IEEE arithmetic the division produces NaNs
that propagate silently instead.  Either way the promised
`DegenerateInputError` is never raised. -/
theorem transform_orientations_zero_direction (thrusters : List Thruster3D) :
    transform_orientations thrusters ![0, 0, 0]
      = Except.error TauError.linAlgError := by
  have hinv : inv3 (new_bases ![0, 0, 0]) = none := by
    rw [vec3_zero_eq, new_bases_zero, inv3, if_pos (Matrix.det_zero ⟨0⟩)]
  rw [transform_orientations, hinv]

lemma normSq_ne_zero {v : V3} (h : v ≠ 0) :
    v 0 ^ 2 + v 1 ^ 2 + v 2 ^ 2 ≠ 0 := by
  intro hsum
  apply h
  have h0 : v 0 = 0 := by
    nlinarith [sq_nonneg (v 0), sq_nonneg (v 1), sq_nonneg (v 2)]
  have h1 : v 1 = 0 := by
    nlinarith [sq_nonneg (v 0), sq_nonneg (v 1), sq_nonneg (v 2)]
  have h2 : v 2 = 0 := by
    nlinarith [sq_nonneg (v 0), sq_nonneg (v 1), sq_nonneg (v 2)]
  funext i
  fin_cases i <;> simp [h0, h1, h2]

lemma normSq_normalize3 {v : V3} (hv : v 0 ^ 2 + v 1 ^ 2 + v 2 ^ 2 ≠ 0) :
    normalize3 v 0 ^ 2 + normalize3 v 1 ^ 2 + normalize3 v 2 ^ 2 = 1 := by
  have hpos : 0 < v 0 ^ 2 + v 1 ^ 2 + v 2 ^ 2 :=
    lt_of_le_of_ne (by positivity) (Ne.symm hv)
  have hn : vnorm v ^ 2 = v 0 ^ 2 + v 1 ^ 2 + v 2 ^ 2 :=
    Real.sq_sqrt (le_of_lt hpos)
  have hn0 : vnorm v ≠ 0 := by
    rw [vnorm]
    exact ne_of_gt (Real.sqrt_pos.mpr hpos)
  simp only [normalize3]
  rw [div_pow, div_pow, div_pow, div_add_div_same, div_add_div_same, hn]
  exact div_self hv

lemma dot_normalize3 (u v : V3)
    (huv : u 0 * v 0 + u 1 * v 1 + u 2 * v 2 = 0) :
    u 0 * normalize3 v 0 + u 1 * normalize3 v 1 + u 2 * normalize3 v 2 = 0 := by
  simp only [normalize3]
  have hsplit : u 0 * (v 0 / vnorm v) + u 1 * (v 1 / vnorm v)
      + u 2 * (v 2 / vnorm v)
      = (u 0 * v 0 + u 1 * v 1 + u 2 * v 2) / vnorm v := by
    ring
  rw [hsplit, huv, zero_div]

lemma cross3_normSq (a b : V3) :
    cross3 a b 0 ^ 2 + cross3 a b 1 ^ 2 + cross3 a b 2 ^ 2
      = (a 0 ^ 2 + a 1 ^ 2 + a 2 ^ 2) * (b 0 ^ 2 + b 1 ^ 2 + b 2 ^ 2)
        - (a 0 * b 0 + a 1 * b 1 + a 2 * b 2) ^ 2 := by
  rw [cross3_0, cross3_1, cross3_2]
  ring

lemma cross3_dot_left (a b : V3) :
    a 0 * cross3 a b 0 + a 1 * cross3 a b 1 + a 2 * cross3 a b 2 = 0 := by
  rw [cross3_0, cross3_1, cross3_2]
  ring

lemma cross3_dot_right (a b : V3) :
    b 0 * cross3 a b 0 + b 1 * cross3 a b 1 + b 2 * cross3 a b 2 = 0 := by
  rw [cross3_0, cross3_1, cross3_2]
  ring

lemma second_basis_facts (d : V3) (hd : d 0 ^ 2 + d 1 ^ 2 + d 2 ^ 2 = 1) :
    (second_basis d 0 ^ 2 + second_basis d 1 ^ 2 + second_basis d 2 ^ 2 ≠ 0) ∧
    (d 0 * second_basis d 0 + d 1 * second_basis d 1 + d 2 * second_basis d 2
      = 0) := by
  rw [second_basis]
  by_cases hyz : d 1 = 0 ∧ d 2 = 0
  · rw [if_neg (not_not_intro hyz)]
    obtain ⟨h1, h2⟩ := hyz
    constructor
    · rw [cross3_0, cross3_1, cross3_2]
      intro hzero
      norm_num [h1, h2] at hzero
      rw [h1, h2, hzero] at hd
      norm_num at hd
    · rw [cross3_0, cross3_1, cross3_2]
      ring
  · rw [if_pos hyz]
    push_neg at hyz
    constructor
    · rw [cross3_0, cross3_1, cross3_2]
      intro hzero
      norm_num at hzero
      have h1 : d 1 = 0 := by nlinarith [sq_nonneg (d 1), sq_nonneg (d 2)]
      have h2 : d 2 = 0 := by nlinarith [sq_nonneg (d 1), sq_nonneg (d 2)]
      exact absurd h2 (hyz h1)
    · rw [cross3_0, cross3_1, cross3_2]
      ring

lemma rows_orthonormal (u s t : V3)
    (hu : u 0 ^ 2 + u 1 ^ 2 + u 2 ^ 2 = 1)
    (hs : s 0 ^ 2 + s 1 ^ 2 + s 2 ^ 2 = 1)
    (ht : t 0 ^ 2 + t 1 ^ 2 + t 2 ^ 2 = 1)
    (hus : u 0 * s 0 + u 1 * s 1 + u 2 * s 2 = 0)
    (hut : u 0 * t 0 + u 1 * t 1 + u 2 * t 2 = 0)
    (hst : s 0 * t 0 + s 1 * t 1 + s 2 * t 2 = 0) :
    Matrix.of ![u, s, t] * (Matrix.of ![u, s, t])ᵀ = 1 := by
  ext i j
  fin_cases i <;> fin_cases j <;>
    simp only [Matrix.mul_apply, Matrix.transpose_apply, Matrix.of_apply,
      Fin.sum_univ_three, Matrix.cons_val_zero, Matrix.cons_val_one,
      Matrix.cons_val_two, Matrix.head_cons, Matrix.tail_cons,
      Matrix.one_apply, Fin.isValue] <;>
    norm_num [Fin.ext_iff] <;>
    first
      | linear_combination hu
      | linear_combination hs
      | linear_combination ht
      | linear_combination hus
      | linear_combination hut
      | linear_combination hst

lemma new_bases_eq_transpose (target_dir : V3) :
    new_bases target_dir = (Matrix.of
      ![normalize3 target_dir,
        normalize3 (second_basis (normalize3 target_dir)),
        normalize3 (cross3 (normalize3 target_dir)
          (normalize3 (second_basis (normalize3 target_dir))))])ᵀ := rfl

lemma orthonormal_transpose_pack (R : Matrix (Fin 3) (Fin 3) ℝ)
    (hR : R * Rᵀ = 1) :
    Rᵀᵀ * Rᵀ = 1 ∧ Rᵀ * Rᵀᵀ = 1 ∧ (Rᵀ)⁻¹ = Rᵀᵀ ∧
    ∀ v : V3, Matrix.dotProduct (Rᵀᵀ.mulVec v) (Rᵀᵀ.mulVec v)
      = Matrix.dotProduct v v := by
  have h2 : Rᵀ * R = 1 := Matrix.mul_eq_one_comm.mp hR
  refine ⟨?_, ?_, ?_, ?_⟩
  · rw [Matrix.transpose_transpose]
    exact hR
  · rw [Matrix.transpose_transpose]
    exact h2
  · rw [Matrix.transpose_transpose]
    exact Matrix.inv_eq_right_inv h2
  · intro v
    rw [Matrix.transpose_transpose]
    calc Matrix.dotProduct (R.mulVec v) (R.mulVec v)
        = Matrix.dotProduct (Matrix.vecMul (R.mulVec v) R) v :=
          Matrix.dotProduct_mulVec _ R v
      _ = Matrix.dotProduct (Rᵀ.mulVec (R.mulVec v)) v := by
          rw [Matrix.mulVec_transpose]
      _ = Matrix.dotProduct ((Rᵀ * R).mulVec v) v := by
          rw [Matrix.mulVec_mulVec]
      _ = Matrix.dotProduct v v := by
          rw [h2, Matrix.one_mulVec]

lemma basis_construction_orthonormal (d : V3)
    (hd : d 0 ^ 2 + d 1 ^ 2 + d 2 ^ 2 = 1) :
    Matrix.of ![d, normalize3 (second_basis d),
        normalize3 (cross3 d (normalize3 (second_basis d)))] *
      (Matrix.of ![d, normalize3 (second_basis d),
        normalize3 (cross3 d (normalize3 (second_basis d)))])ᵀ = 1 := by
  obtain ⟨hs0nz, hds0⟩ := second_basis_facts d hd
  have hs : normalize3 (second_basis d) 0 ^ 2 + normalize3 (second_basis d) 1 ^ 2
      + normalize3 (second_basis d) 2 ^ 2 = 1 := normSq_normalize3 hs0nz
  have hds : d 0 * normalize3 (second_basis d) 0 + d 1 * normalize3 (second_basis d) 1
      + d 2 * normalize3 (second_basis d) 2 = 0 := dot_normalize3 _ _ hds0
  have ht0 : cross3 d (normalize3 (second_basis d)) 0 ^ 2
      + cross3 d (normalize3 (second_basis d)) 1 ^ 2
      + cross3 d (normalize3 (second_basis d)) 2 ^ 2 = 1 := by
    rw [cross3_normSq, hd, hs, hds]
    ring
  have ht : normalize3 (cross3 d (normalize3 (second_basis d))) 0 ^ 2
      + normalize3 (cross3 d (normalize3 (second_basis d))) 1 ^ 2
      + normalize3 (cross3 d (normalize3 (second_basis d))) 2 ^ 2 = 1 :=
    normSq_normalize3 (by rw [ht0]; norm_num)
  have hdt : d 0 * normalize3 (cross3 d (normalize3 (second_basis d))) 0
      + d 1 * normalize3 (cross3 d (normalize3 (second_basis d))) 1
      + d 2 * normalize3 (cross3 d (normalize3 (second_basis d))) 2 = 0 :=
    dot_normalize3 _ _ (cross3_dot_left d _)
  have hst : normalize3 (second_basis d) 0
        * normalize3 (cross3 d (normalize3 (second_basis d))) 0
      + normalize3 (second_basis d) 1
        * normalize3 (cross3 d (normalize3 (second_basis d))) 1
      + normalize3 (second_basis d) 2
        * normalize3 (cross3 d (normalize3 (second_basis d))) 2 = 0 :=
    dot_normalize3 _ _ (cross3_dot_right d _)
  exact rows_orthonormal _ _ _ hd hs ht hds hdt hst

/-- C5: for every non-zero target direction the change-of-basis matrix
assembled by `transform_orientations` is orthonormal in exact arithmetic:
its transpose is a two-sided inverse, the numpy inverse taken at line 69
equals the transpose, and applying the transpose (hence the inverse) to any
vector preserves the dot product of the vector with itself — pure rotation,
no scaling. -/
theorem new_bases_orthonormal (target_dir : V3) (h : target_dir ≠ 0) :
    (new_bases target_dir)ᵀ * new_bases target_dir = 1 ∧
    new_bases target_dir * (new_bases target_dir)ᵀ = 1 ∧
    (new_bases target_dir)⁻¹ = (new_bases target_dir)ᵀ ∧
    ∀ v : V3, Matrix.dotProduct ((new_bases target_dir)ᵀ.mulVec v)
      ((new_bases target_dir)ᵀ.mulVec v) = Matrix.dotProduct v v := by
  rw [new_bases_eq_transpose]
  exact orthonormal_transpose_pack _
    (basis_construction_orthonormal (normalize3 target_dir)
      (normSq_normalize3 (normSq_ne_zero h)))

/-- C5 witness: the orthonormality theorem applied to the concrete non-zero
direction (3, 4, 0). -/
theorem new_bases_orthonormal_witness :
    (![3, 4, 0] : V3) ≠ 0 ∧
    ((new_bases ![3, 4, 0])ᵀ * new_bases ![3, 4, 0] = 1 ∧
     new_bases ![3, 4, 0] * (new_bases ![3, 4, 0])ᵀ = 1 ∧
     (new_bases ![3, 4, 0])⁻¹ = (new_bases ![3, 4, 0])ᵀ ∧
     ∀ v : V3, Matrix.dotProduct ((new_bases ![3, 4, 0])ᵀ.mulVec v)
       ((new_bases ![3, 4, 0])ᵀ.mulVec v) = Matrix.dotProduct v v) := by
  have hne : (![3, 4, 0] : V3) ≠ 0 := by
    intro hE
    have h3 := congrFun hE 0
    norm_num [Matrix.cons_val_zero] at h3
  exact ⟨hne, new_bases_orthonormal ![3, 4, 0] hne⟩

/-! ### The per-thruster optional fields do not influence the computation -/

lemma map_torque_eq (ts₁ ts₂ : List Thruster3D)
    (hpos : ts₁.map Thruster3D.pos = ts₂.map Thruster3D.pos)
    (hor : ts₁.map Thruster3D.orientation = ts₂.map Thruster3D.orientation) :
    ts₁.map Thruster3D.torque = ts₂.map Thruster3D.torque := by
  induction ts₁ generalizing ts₂ with
  | nil =>
      cases ts₂ with
      | nil => rfl
      | cons b m => simp at hpos
  | cons a l ih =>
      cases ts₂ with
      | nil => simp at hpos
      | cons b m =>
          simp only [List.map_cons, List.cons.injEq] at hpos hor ⊢
          exact ⟨by rw [Thruster3D.torque, Thruster3D.torque, hpos.1, hor.1],
            ih m hpos.2 hor.2⟩

lemma transform_orientations_eq_of_orientations (ts₁ ts₂ : List Thruster3D)
    (target_dir : V3)
    (hor : ts₁.map Thruster3D.orientation = ts₂.map Thruster3D.orientation) :
    transform_orientations ts₁ target_dir
      = transform_orientations ts₂ target_dir := by
  rw [transform_orientations, transform_orientations]
  cases inv3 (new_bases target_dir) with
  | none => rfl
  | some Mi =>
      simp only [Except.ok.injEq]
      calc ts₁.map (fun th => Mi.mulVec th.orientation)
          = (ts₁.map Thruster3D.orientation).map (fun o => Mi.mulVec o) := by
            rw [List.map_map]
            rfl
        _ = (ts₂.map Thruster3D.orientation).map (fun o => Mi.mulVec o) := by
            rw [hor]
        _ = ts₂.map (fun th => Mi.mulVec th.orientation) := by
            rw [List.map_map]
            rfl

/-- C10: `get_max_thrust` receives only the transformed orientations, the
torque arms, and the budget; neither `transform_orientations` nor the torque
computation reads `max_thrusts`, `fwd_current` or `rev_current` — those LP
bounds and current coefficients come from the module-level defaults (lines
101, 160–161, 195–202).  Hence two thruster lists agreeing on positions and
orientations produce identical results for every direction, budget, and
solver oracle: the optional per-thruster fields accepted at load time have no
effect on the computed envelope. -/
theorem sample_direction_ignores_optional_fields (solve : Solver)
    (ts₁ ts₂ : List Thruster3D) (target_dir : V3) (max_current : ℝ)
    (hpos : ts₁.map Thruster3D.pos = ts₂.map Thruster3D.pos)
    (hor : ts₁.map Thruster3D.orientation = ts₂.map Thruster3D.orientation) :
    sample_direction solve ts₁ target_dir max_current
      = sample_direction solve ts₂ target_dir max_current := by
  rw [sample_direction, sample_direction,
    transform_orientations_eq_of_orientations ts₁ ts₂ target_dir hor,
    map_torque_eq ts₁ ts₂ hpos hor]

/-- C10 witness: two one-thruster lists with identical geometry but different
`max_thrusts`, `fwd_current`, `rev_current` give the same sample. -/
theorem sample_direction_ignores_optional_fields_witness :
    ([⟨1, 2, 3, 30, 60, (-2.9, 3.71), (0.741, 1.89, -0.278),
        (1.36, 2.04, -0.231)⟩] : List Thruster3D).map Thruster3D.pos
      = ([⟨1, 2, 3, 30, 60, (-1, 1), (1, 1, 1), (2, 2, 2)⟩]
        : List Thruster3D).map Thruster3D.pos ∧
    ([⟨1, 2, 3, 30, 60, (-2.9, 3.71), (0.741, 1.89, -0.278),
        (1.36, 2.04, -0.231)⟩] : List Thruster3D).map Thruster3D.orientation
      = ([⟨1, 2, 3, 30, 60, (-1, 1), (1, 1, 1), (2, 2, 2)⟩]
        : List Thruster3D).map Thruster3D.orientation ∧
    sample_direction (fun _ => none)
        [⟨1, 2, 3, 30, 60, (-2.9, 3.71), (0.741, 1.89, -0.278),
          (1.36, 2.04, -0.231)⟩] ![1, 0, 0] 22
      = sample_direction (fun _ => none)
          [⟨1, 2, 3, 30, 60, (-1, 1), (1, 1, 1), (2, 2, 2)⟩] ![1, 0, 0] 22 := by
  refine ⟨rfl, rfl, ?_⟩
  exact sample_direction_ignores_optional_fields (fun _ => none) _ _ ![1, 0, 0] 22
    rfl rfl
